import Mathlib

/-!
Shallow embedding of `pipeline.go` from the `executor` repository.

The repository orchestrates a pipeline of containerized stages: for each
stage it runs `docker build` and `docker run`, chains the captured stdout
of a stage into the stdin of the next, and escalates failures to an
optional error-handler stage.

External effects (the docker processes, the filesystem work done by
`setup`, the volume removal done by `tearDown`) are modelled by an
explicit oracle `ExecEnv` describing the outcome of every external
invocation, and every external invocation performed by the orchestrator
is recorded in an event trace.  Wall-clock time (`time.Now()`) is outside
the embedding and is modelled by the abstract constant instant `timeNow`.
-/

namespace Executor

/-! ### Go string helpers used by the source

`pipeline.go` builds its command lines with `fmt.Sprintf`, splits them
with `strings.Split(s, " ")`, joins them back with
`strings.Join(l, " ")`, trims with `strings.TrimRight(s, " ")` and
derives image tags with `filepath.Base`.  These stdlib functions are
embedded here on `String`/`List Char`.
-/

/-- Auxiliary worker for `splitSpace`: walks the character list keeping
the (reversed) current field in `acc`, emitting a field at every space. -/
def splitSpaceAux : List Char → List Char → List String
  | [], acc => [String.mk acc.reverse]
  | c :: cs, acc =>
    if c = ' ' then String.mk acc.reverse :: splitSpaceAux cs []
    else splitSpaceAux cs (c :: acc)

/-- Go `strings.Split(s, " ")`: split at every single space, keeping
empty fields; the empty string yields `[""]`. -/
def splitSpace (s : String) : List String :=
  splitSpaceAux s.data []

/-- Go `strings.Join(l, " ")`. -/
def joinSpace : List String → String
  | [] => ""
  | [x] => x
  | x :: y :: xs => x ++ " " ++ joinSpace (y :: xs)

/-- Go `strings.TrimRight(s, " ")`: drop every trailing space. -/
def trimRightSpace (s : String) : String :=
  String.mk ((s.data.reverse.dropWhile (fun c => c = ' ')).reverse)

/-- Go `path/filepath.Base`: the final path segment ("." for the empty
path, "/" for an all-slash path, trailing slashes stripped). -/
def filepathBase (path : String) : String :=
  if path = "" then "."
  else
    let stripped := (path.data.reverse.dropWhile (fun c => c = '/')).reverse
    if stripped = [] then "/"
    else String.mk ((stripped.reverse.takeWhile (fun c => c ≠ '/')).reverse)

/-! ### The status package

The repository's `status` package is not part of the analysed source;
the spec treats it as an opaque classification
`classify(exitCode) -> {OK, BuildError, RunError, SetupError,
ErrorHandlerError}` together with `text(classification) -> string`,
pinning only that exit status 0 classifies as OK.
-/

namespace status

/-- Modelled from the spec: the failure taxonomy of the out-of-scope
`status` package (`OK`, `SetupError`, `BuildError`, `RunError`,
`ErrorHandlerError`); `Unknown` stands for the unspecified non-OK
classification of a nonzero exit code. -/
inductive Code where
  | OK
  | SetupError
  | BuildError
  | RunError
  | ErrorHandlerError
  | Unknown
  deriving DecidableEq, Repr

/-- Modelled from the spec: `text(classification) -> string` of the
out-of-scope `status` package. -/
def Text : Code → String
  | Code.OK => "OK"
  | Code.SetupError => "SetupError"
  | Code.BuildError => "BuildError"
  | Code.RunError => "RunError"
  | Code.ErrorHandlerError => "ErrorHandlerError"
  | Code.Unknown => "Unknown"

/-- Modelled from the spec: `classify(exitCode)` of the out-of-scope
`status` package.  The spec pins only that exit status 0 means OK; every
other exit code is some unspecified non-OK classification. -/
def ofInt (v : Int) : Code :=
  if v = 0 then Code.OK else Code.Unknown

theorem ofInt_eq_ok (v : Int) : status.ofInt v = Code.OK ↔ v = 0 := by
  unfold ofInt
  split
  · simp_all
  · simp_all

end status

/-! ### Outcome oracle for external processes -/

/-- Outcome of `cmd.Run()` for one external process, as discriminated by
the source: `success` is a nil error (exit code 0); `exitError c` is an
`*exec.ExitError` carrying exit code `c` (the process started);
`execError` is an `*exec.Error` (the command could not be started);
`otherError` is any other non-nil error. -/
inductive RunErr where
  | success
  | exitError (code : Int)
  | execError (msg : String)
  | otherError (msg : String)
  deriving DecidableEq, Repr

/-- `statusCode` from `pipeline.go`: 0 for a nil error, the exit code
for an `*exec.ExitError`, and the sentinel `noExitError = -2` for any
other error (in particular for an `*exec.Error`). -/
def statusCode : RunErr → Int
  | RunErr.success => 0
  | RunErr.exitError c => c
  | RunErr.execError _ => -2
  | RunErr.otherError _ => -2

/-- Observable behavior of one external process invocation: how
`cmd.Run()` terminates and what the process writes to the captured
stdout and stderr buffers. -/
structure ProcBehavior where
  err : RunErr
  stdout : String
  stderr : String
  deriving DecidableEq, Repr

/-- A process invocation counts as fully successful for the
orchestrator when the executor returns a nil error and the exit status
classifies as OK: the command started and exited with code 0. -/
def ProcBehavior.ok (b : ProcBehavior) : Bool :=
  match b.err with
  | RunErr.success => true
  | RunErr.exitError c => c == 0
  | RunErr.execError _ => false
  | RunErr.otherError _ => false

/-- `time.Now()` is outside the embedding: every timestamp taken by the
source is modelled as this abstract instant. -/
def timeNow : Nat := 0

/-! ### Data model (`pipeline.go` structs) -/

/-- `Stage` from `pipeline.go`. -/
structure Stage where
  Name : String := ""
  Dir : String := ""
  BaseDir : String := ""
  BuildEnv : List (String × String) := []
  RunEnv : List (String × String) := []
  deriving DecidableEq, Repr

/-- `Pipeline` from `pipeline.go`. -/
structure Pipeline where
  Name : String := ""
  DefaultBaseDir : String := ""
  DefaultBuildEnv : List (String × String) := []
  DefaultRunEnv : List (String × String) := []
  Stages : List Stage := []
  ErrorHandler : Stage := {}
  deriving DecidableEq, Repr

/-- `CmdResult` from `pipeline.go`; the field defaults are the Go zero
values. -/
structure CmdResult where
  Stdin : String := ""
  Stdout : String := ""
  Stderr : String := ""
  Cmd : String := ""
  CmdDir : String := ""
  ExitStatus : Int := 0
  Env : List String := []
  deriving DecidableEq, Repr

/-- `StageExecutionResult` from `pipeline.go`; defaults are Go zero
values (`timeNow`-typed fields zeroed as the abstract origin instant 0,
distinct from nothing else since time is not modelled). -/
structure StageExecutionResult where
  Stage : String := ""
  StartTime : Nat := 0
  FinalTime : Nat := 0
  BuildResult : CmdResult := {}
  RunResult : CmdResult := {}
  deriving DecidableEq, Repr

/-- `PipelineResult` from `pipeline.go`. -/
structure PipelineResult where
  Name : String := ""
  StageResults : List StageExecutionResult := []
  StartTime : Nat := 0
  FinalTime : Nat := 0
  Status : String := ""
  deriving DecidableEq, Repr

/-- Go `error` values returned by the source: `statusErr` models a
`status.NewError(code, err)` wrapper (spec: the status package wraps an
error with a classification), `plainErr` models a bare `fmt.Errorf`. -/
inductive PipeError where
  | statusErr (code : status.Code) (msg : String)
  | plainErr (msg : String)
  deriving DecidableEq, Repr

/-- The message carried by an error value. -/
def PipeError.message : PipeError → String
  | PipeError.statusErr _ m => m
  | PipeError.plainErr m => m

/-! ### Command lines built by the executors -/

/-- The `--build-arg KEY=VALUE ` string built by the loop in
`buildImage` (one trailing space per entry, exactly as
`fmt.Fprintf(&b, "--build-arg %s=%s ", k, v)` emits). -/
def buildArgStr : List (String × String) → String
  | [] => ""
  | (k, v) :: rest => "--build-arg " ++ k ++ "=" ++ v ++ " " ++ buildArgStr rest

/-- The `--env KEY=VALUE ` string built by the loop in `runImage`. -/
def envStr : List (String × String) → String
  | [] => ""
  | (k, v) :: rest => "--env " ++ k ++ "=" ++ v ++ " " ++ envStr rest

/-- The command string of `buildImage`:
`fmt.Sprintf("docker build %s-t %s .", env, filepath.Base(dir))`. -/
def buildCmdStr (dir : String) (buildEnv : List (String × String)) : String :=
  "docker build " ++ buildArgStr buildEnv ++ "-t " ++ filepathBase dir ++ " ."

/-- The command list of `buildImage` (`strings.Split(..., " ")`). -/
def buildCmdList (dir : String) (buildEnv : List (String × String)) : List String :=
  splitSpace (buildCmdStr dir buildEnv)

/-- The command string of `runImage`:
`fmt.Sprintf("docker run -i -v dadosjusbr:/output --rm %s %s", env, filepath.Base(dir))`
where `env` is the flag string with its trailing spaces trimmed. -/
def runCmdStr (dir : String) (runEnv : List (String × String)) : String :=
  "docker run -i -v dadosjusbr:/output --rm " ++ trimRightSpace (envStr runEnv)
    ++ " " ++ filepathBase dir

/-- The command list of `runImage` (`strings.Split(..., " ")`). -/
def runCmdList (dir : String) (runEnv : List (String × String)) : List String :=
  splitSpace (runCmdStr dir runEnv)

/-! ### mergeEnv

Go maps are embedded as association lists with distinct keys (a Go map
can never hold a key twice); lookup is `List.lookup`.  `mergeEnv`
allocates a fresh map and copies the default entries, then the stage
entries, so an insertion either overwrites the key in place or appends
a fresh entry.
-/

/-- One Go map assignment `env[k] = v`: overwrite the key in place if
present, append a fresh entry otherwise.  (Association lists embedding
Go maps never hold a key twice.) -/
def insertEnv : List (String × String) → String → String → List (String × String)
  | [], k, v => [(k, v)]
  | (k', v') :: t, k, v =>
    if k' = k then (k, v) :: t else (k', v') :: insertEnv t k v

/-- `mergeEnv` from `pipeline.go`: start from a fresh empty map, copy
every default entry, then every stage entry (stage entries overwriting
same-named defaults). -/
def mergeEnv (defaultEnv stageEnv : List (String × String)) : List (String × String) :=
  let env := defaultEnv.foldl (fun m kv => insertEnv m kv.1 kv.2) []
  stageEnv.foldl (fun m kv => insertEnv m kv.1 kv.2) env

/-! ### Build and run executors -/

/-- `buildImage` from `pipeline.go`, with the external `docker build`
process abstracted by its observable behavior `proc` and the ambient
`os.Environ()` by `osEnv`.  If `cmd.Run()` fails with an `*exec.Error`
(the command could not be started) it returns a `CmdResult` carrying
only the sentinel exit status and the command string, plus a non-nil
error; otherwise it returns a fully populated `CmdResult` and a nil
error, leaving the exit-status check to the caller.  (The `id` argument
is only logged by the source.) -/
def buildImage (id dir : String) (buildEnv : List (String × String))
    (osEnv : List String) (proc : ProcBehavior) : CmdResult × Option String :=
  let cmdList := buildCmdList dir buildEnv
  match proc.err with
  | RunErr.execError e =>
    ({ ExitStatus := statusCode (RunErr.execError e), Cmd := joinSpace cmdList },
     some ("command was not executed correctly: " ++ e))
  | _ =>
    ({ Stdout := proc.stdout, Stderr := proc.stderr, Cmd := joinSpace cmdList,
       CmdDir := dir, ExitStatus := statusCode proc.err, Env := osEnv },
     none)

/-- `runImage` from `pipeline.go`: like `buildImage` but it mounts the
shared volume, feeds `previousStdout` to the process as stdin and
records it in the result. -/
def runImage (id dir previousStdout : String) (runEnv : List (String × String))
    (osEnv : List String) (proc : ProcBehavior) : CmdResult × Option String :=
  let cmdList := runCmdList dir runEnv
  match proc.err with
  | RunErr.execError e =>
    ({ ExitStatus := statusCode (RunErr.execError e), Cmd := joinSpace cmdList },
     some ("command was not executed correctly: " ++ e))
  | _ =>
    ({ Stdin := previousStdout, Stdout := proc.stdout, Stderr := proc.stderr,
       Cmd := joinSpace cmdList, CmdDir := dir, ExitStatus := statusCode proc.err,
       Env := osEnv },
     none)

/-! ### JSON serialization of the failing stage result

`handleError` feeds `json.Marshal(previousSer)` to the handler's run.
`encoding/json` is Go stdlib; it is embedded here for the field tags of
the source structs, with timestamps rendered as the abstract instants
of the embedding and string escaping restricted to quote and backslash
(sufficient: nothing in the development depends on finer escaping). -/

/-- Escape a string for a JSON string literal (quote and backslash). -/
def jsonEscape (s : String) : String :=
  String.mk (s.data.foldr
    (fun c acc =>
      if c = '"' then '\\' :: '"' :: acc
      else if c = '\\' then '\\' :: '\\' :: acc
      else c :: acc) [])

/-- A JSON string literal. -/
def jsonStr (s : String) : String := "\"" ++ jsonEscape s ++ "\""

/-- A JSON array of string literals. -/
def jsonArr (l : List String) : String :=
  "[" ++ String.intercalate "," (l.map jsonStr) ++ "]"

/-- JSON form of a `CmdResult`, following the struct's json tags. -/
def CmdResult.toJson (c : CmdResult) : String :=
  "\x7b\"stdin\":" ++ jsonStr c.Stdin
    ++ ",\"stdout\":" ++ jsonStr c.Stdout
    ++ ",\"stderr\":" ++ jsonStr c.Stderr
    ++ ",\"cmd\":" ++ jsonStr c.Cmd
    ++ ",\"cmdDir\":" ++ jsonStr c.CmdDir
    ++ ",\"status\":" ++ toString c.ExitStatus
    ++ ",\"env\":" ++ jsonArr c.Env
    ++ "\x7d"

/-- JSON form of a `StageExecutionResult` (`json.Marshal(previousSer)`),
following the struct's json tags. -/
def StageExecutionResult.toJson (s : StageExecutionResult) : String :=
  "\x7b\"stage\":" ++ jsonStr s.Stage
    ++ ",\"start\":" ++ toString s.StartTime
    ++ ",\"end\":" ++ toString s.FinalTime
    ++ ",\"buildResult\":" ++ s.BuildResult.toJson
    ++ ",\"runResult\":" ++ s.RunResult.toJson
    ++ "\x7d"

/-! ### Oracle and event trace for a whole run -/

/-- Oracle describing every external outcome a call to `Run` can
observe: whether `setup` and `tearDown` fail (and with which error
message), the behavior of the `docker build` / `docker run` process of
each stage (by stage index), the behavior of the handler's build and
run processes, and the ambient `os.Environ()` snapshot. -/
structure ExecEnv where
  setupErr : Option String := none
  teardownErr : Option String := none
  buildProc : Nat → ProcBehavior := fun _ => { err := RunErr.success, stdout := "", stderr := "" }
  runProc : Nat → ProcBehavior := fun _ => { err := RunErr.success, stdout := "", stderr := "" }
  handlerBuildProc : ProcBehavior := { err := RunErr.success, stdout := "", stderr := "" }
  handlerRunProc : ProcBehavior := { err := RunErr.success, stdout := "", stderr := "" }
  osEnv : List String := []

/-- External invocations performed by the orchestrator, in order:
`setup`, one `buildEv`/`runEv` per executor call (with the command list,
working directory and — for runs — the stdin fed to the process), and
`teardownEv` for `tearDown`. -/
inductive Event where
  | setupEv (baseDir : String)
  | buildEv (id dir : String) (cmdList : List String)
  | runEv (id dir stdin : String) (cmdList : List String)
  | teardownEv
  deriving DecidableEq, Repr

/-- Recognizer for the teardown event. -/
def Event.isTeardown : Event → Bool
  | Event.teardownEv => true
  | _ => false

/-- Recognizer for executor (build or run) events. -/
def Event.isExec : Event → Bool
  | Event.buildEv _ _ _ => true
  | Event.runEv _ _ _ _ => true
  | _ => false

/-- Number of `tearDown` invocations recorded in a trace. -/
def countTeardown (evs : List Event) : Nat :=
  (evs.filter Event.isTeardown).length

/-! ### Error escalation (`handleError`) and the orchestrator (`Run`) -/

/-- `handleError` from `pipeline.go`.  It stamps and appends the failing
stage's result; with no handler configured (empty handler directory) it
finalizes the accumulated result under the original classification and
returns it with the original descriptive error; otherwise it builds and
runs the handler (feeding it the JSON of the failing stage result), any
handler failure overriding the status to `ErrorHandlerError` and the
returned error with the handler's own, while handler success falls back
to the original classification and message. -/
def handleError (env : ExecEnv) (result : PipelineResult)
    (previousSer : StageExecutionResult) (previousStatus : status.Code)
    (msg : String) (handler : Stage) (events : List Event) :
    PipelineResult × Option PipeError × List Event :=
  let previousSer := { previousSer with FinalTime := timeNow }
  let result := { result with StageResults := result.StageResults ++ [previousSer] }
  if handler.Dir ≠ "" then
    let hid := result.Name ++ "/" ++ previousSer.Stage ++ " calls Error Handler"
    let bOut := buildImage hid handler.Dir handler.BuildEnv env.osEnv env.handlerBuildProc
    let events := events ++ [Event.buildEv hid handler.Dir (buildCmdList handler.Dir handler.BuildEnv)]
    let serError : StageExecutionResult :=
      { Stage := handler.Name, StartTime := timeNow, BuildResult := bOut.1 }
    match bOut.2 with
    | some e =>
      ({ result with StageResults := result.StageResults ++ [serError],
                     Status := status.Text status.Code.ErrorHandlerError,
                     FinalTime := timeNow },
       some (PipeError.statusErr status.Code.BuildError
         ("error when building image for error handler: " ++ e)),
       events)
    | none =>
      if status.ofInt serError.BuildResult.ExitStatus ≠ status.Code.OK then
        ({ result with StageResults := result.StageResults ++ [serError],
                       Status := status.Text status.Code.ErrorHandlerError,
                       FinalTime := timeNow },
         some (PipeError.statusErr status.Code.BuildError
           ("error when building image for error handler: Status code "
             ++ toString serError.BuildResult.ExitStatus ++ "("
             ++ status.Text (status.ofInt serError.BuildResult.ExitStatus)
             ++ ") when running image for " ++ hid)),
         events)
      else
        let erStdin := previousSer.toJson
        let rOut := runImage hid handler.Dir erStdin handler.RunEnv env.osEnv env.handlerRunProc
        let events := events ++ [Event.runEv hid handler.Dir erStdin (runCmdList handler.Dir handler.RunEnv)]
        let serError := { serError with RunResult := rOut.1 }
        match rOut.2 with
        | some e =>
          ({ result with StageResults := result.StageResults ++ [serError],
                         Status := status.Text status.Code.ErrorHandlerError,
                         FinalTime := timeNow },
           some (PipeError.statusErr status.Code.RunError
             ("error when running image for error handler: " ++ e)),
           events)
        | none =>
          if status.ofInt serError.RunResult.ExitStatus ≠ status.Code.OK then
            ({ result with StageResults := result.StageResults ++ [serError],
                           Status := status.Text status.Code.ErrorHandlerError,
                           FinalTime := timeNow },
             some (PipeError.statusErr status.Code.RunError
               ("error when running image for error handler: Status code "
                 ++ toString serError.RunResult.ExitStatus ++ "("
                 ++ status.Text (status.ofInt serError.RunResult.ExitStatus)
                 ++ ") when running image for " ++ hid)),
             events)
          else
            ({ result with Status := status.Text previousStatus, FinalTime := timeNow },
             some (PipeError.plainErr msg),
             events)
  else
    ({ result with Status := status.Text previousStatus, FinalTime := timeNow },
     some (PipeError.plainErr msg),
     events)

/-- The message of the second build-failure arm of `Run`'s loop
(`status code %d(%s) when building image for %s`). -/
def buildStatusMsg (c : Int) (id : String) : String :=
  "error when building image: status code " ++ toString c ++ "("
    ++ status.Text (status.ofInt c) ++ ") when building image for " ++ id

/-- The message of the second run-failure arm of `Run`'s loop
(`Status code %d(%s) when running image for %s`). -/
def runStatusMsg (c : Int) (id : String) : String :=
  "error when running image: Status code " ++ toString c ++ "("
    ++ status.Text (status.ofInt c) ++ ") when running image for " ++ id

/-- Base-directory resolution and image context directory of a stage:
the stage's own base directory if nonempty, else the pipeline default,
joined with the stage directory by a slash. -/
def stageDir (p : Pipeline) (stage : Stage) : String :=
  (if stage.BaseDir = "" then p.DefaultBaseDir else stage.BaseDir) ++ "/" ++ stage.Dir

/-- The stage identifier used for logging and error messages
(`fmt.Sprintf("%s/%s", p.Name, stage.Name)`). -/
def stageId (p : Pipeline) (stage : Stage) : String :=
  p.Name ++ "/" ++ stage.Name

/-- The stdin fed to a stage's run: the captured run stdout of the
previously appended stage result, the empty string for the first stage
(`result.StageResults[index-1].RunResult.Stdout`). -/
def prevStdout (result : PipelineResult) (index : Nat) : String :=
  if index ≠ 0 then (result.StageResults.getD (index - 1) {}).RunResult.Stdout
  else ""

/-- The stage loop of `Pipeline.Run`, one recursive step per remaining
stage; `index` is the loop index and `result` the accumulated
`PipelineResult`.  On loop exhaustion it performs `tearDown` and closes
the result; inside the loop it resolves the base directory, merges the
environments, calls the executors and dispatches every failure to
`handleError`. -/
def runLoop (p : Pipeline) (env : ExecEnv) :
    List Stage → Nat → PipelineResult → List Event →
    PipelineResult × Option PipeError × List Event
  | [], _, result, events =>
    let events := events ++ [Event.teardownEv]
    match env.teardownErr with
    | some e =>
      ({ result with Status := status.Text status.Code.SetupError },
       some (PipeError.statusErr status.Code.SetupError
         ("error in tear down: " ++ "\"" ++ e ++ "\"")),
       events)
    | none =>
      ({ result with Status := status.Text status.Code.OK, FinalTime := timeNow },
       none, events)
  | stage :: rest, index, result, events =>
    let dir := stageDir p stage
    let id := stageId p stage
    let buildEnv := mergeEnv p.DefaultBuildEnv stage.BuildEnv
    let bOut := buildImage id dir buildEnv env.osEnv (env.buildProc index)
    let events := events ++ [Event.buildEv id dir (buildCmdList dir buildEnv)]
    let ser : StageExecutionResult :=
      { Stage := stage.Name, StartTime := timeNow, BuildResult := bOut.1 }
    match bOut.2 with
    | some e =>
      handleError env result ser status.Code.BuildError
        ("error when building image: " ++ e) p.ErrorHandler events
    | none =>
      if status.ofInt ser.BuildResult.ExitStatus ≠ status.Code.OK then
        handleError env result ser status.Code.BuildError
          (buildStatusMsg ser.BuildResult.ExitStatus id) p.ErrorHandler events
      else
        let stdout := prevStdout result index
        let runEnv := mergeEnv p.DefaultRunEnv stage.RunEnv
        let rOut := runImage id dir stdout runEnv env.osEnv (env.runProc index)
        let events := events ++ [Event.runEv id dir stdout (runCmdList dir runEnv)]
        let ser := { ser with RunResult := rOut.1 }
        match rOut.2 with
        | some e =>
          handleError env result ser status.Code.RunError
            ("error when running image: " ++ e) p.ErrorHandler events
        | none =>
          if status.ofInt ser.RunResult.ExitStatus ≠ status.Code.OK then
            handleError env result ser status.Code.RunError
              (runStatusMsg ser.RunResult.ExitStatus id) p.ErrorHandler events
          else
            let ser := { ser with FinalTime := timeNow }
            runLoop p env rest (index + 1)
              { result with StageResults := result.StageResults ++ [ser] } events

/-- `Pipeline.Run` from `pipeline.go`.  `setup`'s filesystem and volume
work is external and represented by the oracle (`env.setupErr`) plus a
`setupEv` trace entry; on setup failure the run aborts with status
`SetupError` and no stage executor is invoked, otherwise the stage loop
runs. -/
def Pipeline.Run (p : Pipeline) (env : ExecEnv) :
    PipelineResult × Option PipeError × List Event :=
  let result : PipelineResult := { Name := p.Name, StartTime := timeNow }
  match env.setupErr with
  | some e =>
    ({ result with Status := status.Text status.Code.SetupError },
     some (PipeError.statusErr status.Code.SetupError
       ("error in inicial setup: " ++ "\"" ++ e ++ "\"")),
     [Event.setupEv p.DefaultBaseDir])
  | none =>
    runLoop p env p.Stages 0 result [Event.setupEv p.DefaultBaseDir]

/-! ### Lemmas about the Go string helpers -/

/-- A string is space-free when none of its characters is a space. -/
def spaceFree (s : String) : Bool :=
  s.data.all (fun c => c != ' ')

/-- Entrywise space-freedom of an environment mapping. -/
def spaceFreeEnv (l : List (String × String)) : Bool :=
  l.all (fun kv => spaceFree kv.1 && spaceFree kv.2)

theorem splitSpaceAux_no_space (xs : List Char) (acc : List Char)
    (h : ∀ c ∈ xs, c ≠ ' ') :
    splitSpaceAux xs acc = [String.mk (acc.reverse ++ xs)] := by
  induction xs generalizing acc with
  | nil => simp [splitSpaceAux]
  | cons c cs ih =>
    have hc : c ≠ ' ' := h c (by simp)
    simp only [splitSpaceAux, if_neg hc]
    rw [ih (c :: acc) (fun d hd => h d (by simp [hd]))]
    simp

theorem splitSpaceAux_split (ys : List Char) (xs acc : List Char)
    (h : ∀ c ∈ xs, c ≠ ' ') :
    splitSpaceAux (xs ++ ' ' :: ys) acc =
      String.mk (acc.reverse ++ xs) :: splitSpaceAux ys [] := by
  induction xs generalizing acc with
  | nil => simp [splitSpaceAux]
  | cons c cs ih =>
    have hc : c ≠ ' ' := h c (by simp)
    simp only [List.cons_append, splitSpaceAux, if_neg hc]
    rw [show cs.append (' ' :: ys) = cs ++ ' ' :: ys from rfl,
      ih (c :: acc) (fun d hd => h d (by simp [hd]))]
    simp

theorem spaceFree_chars {s : String} (h : spaceFree s = true) :
    ∀ c ∈ s.data, c ≠ ' ' := by
  intro c hc
  have := List.all_eq_true.mp h c hc
  simpa using this

/-- Splitting a space-join recovers the list, provided every element is
space-free and the list is nonempty. -/
theorem splitSpace_joinSpace : ∀ (l : List String), l ≠ [] →
    (∀ s ∈ l, spaceFree s = true) → splitSpace (joinSpace l) = l := by
  intro l
  induction l with
  | nil => intro h; exact absurd rfl h
  | cons x t ih =>
    intro _ hsf
    match t with
    | [] =>
      simp only [joinSpace, splitSpace]
      rw [splitSpaceAux_no_space _ _ (spaceFree_chars (hsf x (by simp)))]
      simp
    | y :: t' =>
      simp only [joinSpace, splitSpace]
      have hdata : (x ++ " " ++ joinSpace (y :: t')).data
          = x.data ++ ' ' :: (joinSpace (y :: t')).data := by
        simp [String.data_append]
      rw [hdata, splitSpaceAux_split _ _ _ (spaceFree_chars (hsf x (by simp)))]
      have := ih (by simp) (fun s hs => hsf s (by simp [hs]))
      simp only [splitSpace] at this
      rw [this]
      simp

theorem joinSpace_append : ∀ (l1 l2 : List String), l1 ≠ [] → l2 ≠ [] →
    joinSpace (l1 ++ l2) = joinSpace l1 ++ " " ++ joinSpace l2 := by
  intro l1
  induction l1 with
  | nil => intro l2 h; exact absurd rfl h
  | cons x t ih =>
    intro l2 _ h2
    match t with
    | [] =>
      match l2 with
      | z :: t2 => simp [joinSpace]
    | y :: t' =>
      have : (x :: y :: t') ++ l2 = x :: ((y :: t') ++ l2) := by simp
      rw [this]
      have hcons : ∀ (a : String) (m : List String), m ≠ [] →
          joinSpace (a :: m) = a ++ " " ++ joinSpace m := by
        intro a m hm
        match m with
        | b :: m' => simp [joinSpace]
      rw [hcons x ((y :: t') ++ l2) (by simp), ih l2 (by simp) h2,
        hcons x (y :: t') (by simp)]
      simp [String.append_assoc]

theorem string_eq_of_data {s t : String} (h : s.data = t.data) : s = t := by
  cases s; cases t
  simp at h
  rw [h]

theorem data_mk (l : List Char) : (String.mk l).data = l := rfl

theorem trimRightSpace_append_space (s : String) :
    trimRightSpace (s ++ " ") = trimRightSpace s := by
  unfold trimRightSpace
  have : (s ++ " ").data = s.data ++ [' '] := by simp [String.data_append]
  rw [this]
  simp [List.dropWhile_cons]

theorem trimRightSpace_ne_empty_iff (s : String) :
    trimRightSpace s ≠ "" ↔ s.data.reverse.dropWhile (fun c => c = ' ') ≠ [] := by
  unfold trimRightSpace
  constructor
  · intro h hcontra
    apply h
    rw [hcontra]
    rfl
  · intro h hcontra
    apply h
    have := congrArg String.data hcontra
    simp only [data_mk] at this
    simpa using this

theorem trimRightSpace_append (a b : String) (h : trimRightSpace b ≠ "") :
    trimRightSpace (a ++ b) = a ++ trimRightSpace b := by
  have hb := (trimRightSpace_ne_empty_iff b).mp h
  apply string_eq_of_data
  unfold trimRightSpace
  rw [String.data_append]
  simp only [data_mk, List.reverse_append, List.dropWhile_append]
  rw [if_neg (by simpa using hb)]
  simp [String.data_append, trimRightSpace]

theorem dropWhile_no_space (l : List Char) (h : ∀ c ∈ l, c ≠ ' ') :
    l.dropWhile (fun c => c = ' ') = l := by
  match l with
  | [] => rfl
  | c :: t =>
    have hc : c ≠ ' ' := h c (by simp)
    simp [List.dropWhile_cons, hc]

theorem trimRightSpace_of_spaceFree (b : String) (h : spaceFree b = true)
    (hne : b ≠ "") : trimRightSpace b = b := by
  apply string_eq_of_data
  unfold trimRightSpace
  rw [data_mk, dropWhile_no_space _ (fun c hc => spaceFree_chars h c (by simpa using hc))]
  simp

theorem spaceFree_append {a b : String} (ha : spaceFree a = true)
    (hb : spaceFree b = true) : spaceFree (a ++ b) = true := by
  unfold spaceFree at *
  rw [String.data_append]
  simp only [List.all_append]
  simp [ha, hb]

theorem append_ne_empty_right (a b : String) (h : b ≠ "") : a ++ b ≠ "" := by
  intro hcontra
  apply h
  have := congrArg String.data hcontra
  rw [String.data_append] at this
  have hb : b.data = [] := by
    rcases List.append_eq_nil.mp this with ⟨_, h2⟩
    exact h2
  apply string_eq_of_data
  simpa using hb

theorem append_ne_empty_left (a b : String) (h : a ≠ "") : a ++ b ≠ "" := by
  intro hcontra
  apply h
  have := congrArg String.data hcontra
  rw [String.data_append] at this
  have ha : a.data = [] := by
    rcases List.append_eq_nil.mp this with ⟨h1, _⟩
    exact h1
  apply string_eq_of_data
  simpa using ha

/-! ### The argument pairs emitted for a run environment -/

/-- The `--env KEY=VALUE` argument pairs of a run invocation, one pair
per entry, in entry order. -/
def envChunks : List (String × String) → List String
  | [] => []
  | (k, v) :: rest => "--env" :: (k ++ "=" ++ v) :: envChunks rest

theorem envChunks_spaceFree : ∀ (entries : List (String × String)),
    spaceFreeEnv entries = true →
    ∀ s ∈ envChunks entries, spaceFree s = true := by
  intro entries
  induction entries with
  | nil => intro _ s hs; simp [envChunks] at hs
  | cons kv rest ih =>
    intro hsf s hs
    have hk : spaceFree kv.1 = true ∧ spaceFree kv.2 = true := by
      have := List.all_eq_true.mp hsf kv (by simp)
      simpa using this
    have hrest : spaceFreeEnv rest = true := by
      apply List.all_eq_true.mpr
      intro x hx
      exact List.all_eq_true.mp hsf x (by simp [hx])
    match kv with
    | (k, v) =>
      simp only [envChunks, List.mem_cons] at hs
      rcases hs with h1 | h2 | h3
      · rw [h1]; decide
      · rw [h2]
        exact spaceFree_append (spaceFree_append hk.1 (by decide)) hk.2
      · exact ih hrest s h3

theorem joinSpace_cons_ne_empty (x : String) (l : List String) (hx : x ≠ "") :
    joinSpace (x :: l) ≠ "" := by
  match l with
  | [] => simpa [joinSpace] using hx
  | y :: t =>
    simp only [joinSpace]
    apply append_ne_empty_left
    apply append_ne_empty_left
    exact hx

theorem joinSpace_envChunks_ne_empty (entries : List (String × String))
    (h : entries ≠ []) : joinSpace (envChunks entries) ≠ "" := by
  match entries with
  | (k, v) :: rest =>
    simp only [envChunks]
    apply joinSpace_cons_ne_empty
    decide

/-- Trimming the trailing space of the `--env` flag string yields the
space-join of the argument pairs, for a nonempty space-free mapping. -/
theorem trimRightSpace_envStr : ∀ (entries : List (String × String)),
    spaceFreeEnv entries = true → entries ≠ [] →
    trimRightSpace (envStr entries) = joinSpace (envChunks entries) := by
  intro entries
  induction entries with
  | nil => intro _ h; exact absurd rfl h
  | cons kv rest ih =>
    intro hsf _
    have hk : spaceFree kv.1 = true ∧ spaceFree kv.2 = true := by
      have := List.all_eq_true.mp hsf kv (by simp)
      simpa using this
    have hrest : spaceFreeEnv rest = true := by
      apply List.all_eq_true.mpr
      intro x hx
      exact List.all_eq_true.mp hsf x (by simp [hx])
    match kv, hk with
    | (k, v), hk =>
      have heqv : spaceFree ("=" ++ v) = true := spaceFree_append (by decide) hk.2
      have heqv_ne : ("=" ++ v : String) ≠ "" := append_ne_empty_left "=" v (by decide)
      have htrim_eqv : trimRightSpace ("=" ++ v) = "=" ++ v :=
        trimRightSpace_of_spaceFree _ heqv heqv_ne
      match rest with
      | [] =>
        show trimRightSpace ("--env " ++ k ++ "=" ++ v ++ " " ++ envStr []) = _
        rw [show envStr [] = "" from rfl, String.append_empty,
          show "--env " ++ k ++ "=" ++ v ++ " " = ("--env " ++ k ++ "=" ++ v) ++ " " from rfl,
          trimRightSpace_append_space,
          show "--env " ++ k ++ "=" ++ v = ("--env " ++ k) ++ ("=" ++ v) by
            simp [String.append_assoc],
          trimRightSpace_append _ _ (by rw [htrim_eqv]; exact heqv_ne), htrim_eqv]
        show _ = joinSpace ["--env", k ++ "=" ++ v]
        simp only [joinSpace]
        rw [show ("--env " : String) = "--env" ++ " " from rfl]
        simp [String.append_assoc]
      | kv2 :: rest2 =>
        have hrest_ne : (kv2 :: rest2 : List (String × String)) ≠ [] := by simp
        have hJ := ih hrest hrest_ne
        have hJne : joinSpace (envChunks (kv2 :: rest2)) ≠ "" :=
          joinSpace_envChunks_ne_empty _ hrest_ne
        show trimRightSpace ("--env " ++ k ++ "=" ++ v ++ " " ++ envStr (kv2 :: rest2)) = _
        rw [show "--env " ++ k ++ "=" ++ v ++ " " ++ envStr (kv2 :: rest2)
              = ("--env " ++ k ++ "=" ++ v ++ " ") ++ envStr (kv2 :: rest2) from rfl,
          trimRightSpace_append _ _ (by rw [hJ]; exact hJne), hJ]
        show _ = joinSpace ("--env" :: (k ++ "=" ++ v) :: envChunks (kv2 :: rest2))
        have hchunks_ne : envChunks (kv2 :: rest2) ≠ [] := by
          match kv2 with
          | (a, b) => simp [envChunks]
        match hc : envChunks (kv2 :: rest2) with
        | [] => exact absurd hc hchunks_ne
        | c :: cs =>
          simp only [joinSpace]
          rw [show ("--env " : String) = "--env" ++ " " from rfl]
          simp [String.append_assoc]

/-- The run command list of a nonempty, space-free run environment and a
space-free tag: the docker verb and fixed flags, then one
`--env KEY=VALUE` argument pair per entry, then the tag — with no empty
argument. -/
theorem runCmdList_eq (dir : String) (entries : List (String × String))
    (hne : entries ≠ []) (hsf : spaceFreeEnv entries = true)
    (htag : spaceFree (filepathBase dir) = true) :
    runCmdList dir entries =
      ["docker", "run", "-i", "-v", "dadosjusbr:/output", "--rm"]
        ++ envChunks entries ++ [filepathBase dir] := by
  unfold runCmdList runCmdStr
  rw [trimRightSpace_envStr entries hsf hne]
  have hargs : "docker run -i -v dadosjusbr:/output --rm "
        ++ joinSpace (envChunks entries) ++ " " ++ filepathBase dir
      = joinSpace (["docker", "run", "-i", "-v", "dadosjusbr:/output", "--rm"]
        ++ envChunks entries ++ [filepathBase dir]) := by
    rw [List.append_assoc,
      joinSpace_append ["docker", "run", "-i", "-v", "dadosjusbr:/output", "--rm"]
        (envChunks entries ++ [filepathBase dir]) (by simp)
        (by
          intro hcontra
          rcases List.append_eq_nil.mp hcontra with ⟨_, h2⟩
          simp at h2),
      joinSpace_append (envChunks entries) [filepathBase dir]
        (by
          match entries with
          | (k, v) :: rest => simp [envChunks])
        (by simp)]
    rw [show joinSpace ["docker", "run", "-i", "-v", "dadosjusbr:/output", "--rm"]
        = "docker run -i -v dadosjusbr:/output --rm" from rfl]
    rw [show joinSpace [filepathBase dir] = filepathBase dir from rfl]
    rw [show ("docker run -i -v dadosjusbr:/output --rm " : String)
        = "docker run -i -v dadosjusbr:/output --rm" ++ " " from rfl]
    simp [String.append_assoc]
  rw [hargs]
  apply splitSpace_joinSpace
  · simp
  · intro s hs
    rw [List.append_assoc, List.mem_append] at hs
    rcases hs with h1 | h23
    · exact (by decide :
        ∀ x ∈ (["docker", "run", "-i", "-v", "dadosjusbr:/output", "--rm"] : List String),
          spaceFree x = true) s h1
    · rcases List.mem_append.mp h23 with h2 | h3
      · exact envChunks_spaceFree entries hsf s h2
      · rw [List.mem_singleton.mp h3]
        exact htag

/-! ### Lemmas about mergeEnv -/

/-- Go map lookup `env[k]` on the association-list embedding. -/
def lookupEnv (m : List (String × String)) (k : String) : Option String :=
  match m with
  | [] => none
  | (k', v) :: t => if k = k' then some v else lookupEnv t k

theorem lookupEnv_eq_none_of_not_mem (m : List (String × String)) (k : String)
    (h : k ∉ m.map Prod.fst) : lookupEnv m k = none := by
  induction m with
  | nil => rfl
  | cons kv t ih =>
    obtain ⟨a, b⟩ := kv
    simp only [List.map_cons, List.mem_cons] at h
    push_neg at h
    simp only [lookupEnv, if_neg h.1]
    exact ih h.2

theorem lookupEnv_insertEnv (m : List (String × String)) (k v k' : String) :
    lookupEnv (insertEnv m k v) k' = if k' = k then some v else lookupEnv m k' := by
  induction m with
  | nil => simp [insertEnv, lookupEnv]
  | cons kv t ih =>
    obtain ⟨a, b⟩ := kv
    by_cases ha : a = k
    · subst ha
      simp only [insertEnv, if_pos rfl, lookupEnv]
      by_cases hk' : k' = a
      · simp [hk']
      · simp [hk']
    · simp only [insertEnv, if_neg ha, lookupEnv]
      by_cases hk' : k' = a
      · have hkk : k' ≠ k := fun hc => ha ((hk' ▸ hc : a = k))
        simp [hk', hkk, ha]
      · simp only [if_neg hk', ih]

theorem lookupEnv_foldl_insert (l : List (String × String)) :
    ∀ (m0 : List (String × String)) (k : String),
    (l.map Prod.fst).Nodup →
    lookupEnv (l.foldl (fun m kv => insertEnv m kv.1 kv.2) m0) k
      = ((lookupEnv l k).rec (lookupEnv m0 k) (fun v => some v)) := by
  induction l with
  | nil => intro m0 k _; rfl
  | cons kv t ih =>
    intro m0 k hnd
    match kv with
    | (a, b) =>
      simp only [List.map_cons, List.nodup_cons] at hnd
      have ht := ih (insertEnv m0 a b) k hnd.2
      simp only [List.foldl_cons]
      rw [ht, lookupEnv_insertEnv]
      by_cases hk : k = a
      · subst hk
        rw [lookupEnv_eq_none_of_not_mem t k hnd.1]
        simp [lookupEnv]
      · simp only [lookupEnv, if_neg hk]

/-- The override semantics of `mergeEnv`: a key bound by the stage
mapping takes the stage value, any other key keeps its default
binding. -/
theorem lookupEnv_mergeEnv (d s : List (String × String))
    (hd : (d.map Prod.fst).Nodup) (hs : (s.map Prod.fst).Nodup) (k : String) :
    lookupEnv (mergeEnv d s) k
      = ((lookupEnv s k).rec (lookupEnv d k) (fun v => some v)) := by
  unfold mergeEnv
  rw [lookupEnv_foldl_insert s _ k hs, lookupEnv_foldl_insert d [] k hd]
  cases lookupEnv s k with
  | none =>
    cases lookupEnv d k with
    | none => rfl
    | some v => rfl
  | some v => rfl

/-! ### Lemmas about the orchestrator -/

theorem ok_cases {b : ProcBehavior} (h : b.ok = true) :
    b.err = RunErr.success ∨ b.err = RunErr.exitError 0 := by
  cases herr : b.err with
  | success => exact Or.inl rfl
  | exitError c =>
    rw [ProcBehavior.ok, herr] at h
    simp at h
    exact Or.inr (by rw [h])
  | execError e => rw [ProcBehavior.ok, herr] at h; simp at h
  | otherError e => rw [ProcBehavior.ok, herr] at h; simp at h

theorem not_ok_of_statusCode_ne {b : ProcBehavior} (h : statusCode b.err ≠ 0) :
    b.ok = false := by
  cases herr : b.err with
  | success => rw [herr] at h; simp [statusCode] at h
  | exitError c =>
    rw [herr] at h
    simp only [statusCode] at h
    simp [ProcBehavior.ok, herr, h]
  | execError e => simp [ProcBehavior.ok, herr]
  | otherError e => simp [ProcBehavior.ok, herr]

/-- Every stage with index in `[index, index + n)` builds and runs
successfully under the oracle. -/
def okFrom (env : ExecEnv) : Nat → Nat → Bool
  | _, 0 => true
  | index, n + 1 =>
    ((env.buildProc index).ok && (env.runProc index).ok) && okFrom env (index + 1) n

/-- The stage result recorded for a fully successful stage. -/
def mkSuccSer (p : Pipeline) (env : ExecEnv) (index : Nat) (s : Stage)
    (prev : String) : StageExecutionResult :=
  { Stage := s.Name, StartTime := timeNow, FinalTime := timeNow,
    BuildResult := (buildImage (stageId p s) (stageDir p s)
      (mergeEnv p.DefaultBuildEnv s.BuildEnv) env.osEnv (env.buildProc index)).1,
    RunResult := (runImage (stageId p s) (stageDir p s) prev
      (mergeEnv p.DefaultRunEnv s.RunEnv) env.osEnv (env.runProc index)).1 }

/-- The stage results appended by an all-successful run of the given
stages, starting at loop index `index` with previous stdout `prev`. -/
def expectedResults (p : Pipeline) (env : ExecEnv) :
    Nat → List Stage → String → List StageExecutionResult
  | _, [], _ => []
  | index, s :: rest, prev =>
    mkSuccSer p env index s prev
      :: expectedResults p env (index + 1) rest
           (mkSuccSer p env index s prev).RunResult.Stdout

theorem getD_append_length {α : Type} (l : List α) (x : α) (d : α) :
    (l ++ [x]).getD l.length d = x := by
  induction l with
  | nil => rfl
  | cons y t ih => simp [ih]

theorem countTeardown_append_build (evs : List Event) (id dir : String)
    (c : List String) :
    countTeardown (evs ++ [Event.buildEv id dir c]) = countTeardown evs := by
  simp [countTeardown, Event.isTeardown]

theorem countTeardown_append_run (evs : List Event) (id dir sin : String)
    (c : List String) :
    countTeardown (evs ++ [Event.runEv id dir sin c]) = countTeardown evs := by
  simp [countTeardown, Event.isTeardown]

theorem countTeardown_append_teardown (evs : List Event) :
    countTeardown (evs ++ [Event.teardownEv]) = countTeardown evs + 1 := by
  simp [countTeardown, Event.isTeardown]

/-- Unfolding one fully successful loop iteration. -/
theorem runLoop_cons_ok (p : Pipeline) (env : ExecEnv) (s : Stage)
    (rest : List Stage) (index : Nat) (result : PipelineResult)
    (events : List Event)
    (hb : (env.buildProc index).ok = true) (hr : (env.runProc index).ok = true) :
    runLoop p env (s :: rest) index result events =
      runLoop p env rest (index + 1)
        { result with StageResults :=
            result.StageResults ++ [mkSuccSer p env index s (prevStdout result index)] }
        (events
          ++ [Event.buildEv (stageId p s) (stageDir p s)
                (buildCmdList (stageDir p s) (mergeEnv p.DefaultBuildEnv s.BuildEnv))]
          ++ [Event.runEv (stageId p s) (stageDir p s) (prevStdout result index)
                (runCmdList (stageDir p s) (mergeEnv p.DefaultRunEnv s.RunEnv))]) := by
  rcases ok_cases hb with hbe | hbe <;> rcases ok_cases hr with hre | hre <;>
    simp [runLoop, buildImage, runImage, hbe, hre, statusCode, status.ofInt,
      mkSuccSer, List.append_assoc]

/-- Unfolding one loop iteration whose build could not be started. -/
theorem runLoop_cons_buildExec (p : Pipeline) (env : ExecEnv) (s : Stage)
    (rest : List Stage) (index : Nat) (result : PipelineResult)
    (events : List Event) (e : String)
    (hb : (env.buildProc index).err = RunErr.execError e) :
    runLoop p env (s :: rest) index result events =
      handleError env result
        { Stage := s.Name, StartTime := timeNow,
          BuildResult :=
            { ExitStatus := -2,
              Cmd := joinSpace (buildCmdList (stageDir p s) (mergeEnv p.DefaultBuildEnv s.BuildEnv)) } }
        status.Code.BuildError
        ("error when building image: " ++ ("command was not executed correctly: " ++ e))
        p.ErrorHandler
        (events ++ [Event.buildEv (stageId p s) (stageDir p s)
          (buildCmdList (stageDir p s) (mergeEnv p.DefaultBuildEnv s.BuildEnv))]) := by
  simp [runLoop, buildImage, hb, statusCode]

/-- Unfolding one loop iteration whose build started but exited with a
non-OK status (a non-`exec.Error` failure of `cmd.Run`, classified by
exit status). -/
theorem runLoop_cons_buildStatusFail (p : Pipeline) (env : ExecEnv) (s : Stage)
    (rest : List Stage) (index : Nat) (result : PipelineResult)
    (events : List Event)
    (hnexec : ∀ e, (env.buildProc index).err ≠ RunErr.execError e)
    (hst : statusCode (env.buildProc index).err ≠ 0) :
    runLoop p env (s :: rest) index result events =
      handleError env result
        { Stage := s.Name, StartTime := timeNow,
          BuildResult :=
            { Stdout := (env.buildProc index).stdout,
              Stderr := (env.buildProc index).stderr,
              Cmd := joinSpace (buildCmdList (stageDir p s) (mergeEnv p.DefaultBuildEnv s.BuildEnv)),
              CmdDir := stageDir p s,
              ExitStatus := statusCode (env.buildProc index).err,
              Env := env.osEnv } }
        status.Code.BuildError
        (buildStatusMsg (statusCode (env.buildProc index).err) (stageId p s))
        p.ErrorHandler
        (events ++ [Event.buildEv (stageId p s) (stageDir p s)
          (buildCmdList (stageDir p s) (mergeEnv p.DefaultBuildEnv s.BuildEnv))]) := by
  cases herr : (env.buildProc index).err with
  | success => rw [herr] at hst; simp [statusCode] at hst
  | exitError c =>
    rw [herr] at hst
    simp only [statusCode] at hst
    simp [runLoop, buildImage, herr, statusCode, status.ofInt, hst]
  | execError e => exact absurd herr (hnexec e)
  | otherError e =>
    simp [runLoop, buildImage, herr, statusCode, status.ofInt]

/-- Unfolding one loop iteration whose build succeeds but whose run
could not be started. -/
theorem runLoop_cons_runExec (p : Pipeline) (env : ExecEnv) (s : Stage)
    (rest : List Stage) (index : Nat) (result : PipelineResult)
    (events : List Event) (e : String)
    (hb : (env.buildProc index).ok = true)
    (hr : (env.runProc index).err = RunErr.execError e) :
    runLoop p env (s :: rest) index result events =
      handleError env result
        { Stage := s.Name, StartTime := timeNow,
          BuildResult := (buildImage (stageId p s) (stageDir p s)
            (mergeEnv p.DefaultBuildEnv s.BuildEnv) env.osEnv (env.buildProc index)).1,
          RunResult :=
            { ExitStatus := -2,
              Cmd := joinSpace (runCmdList (stageDir p s) (mergeEnv p.DefaultRunEnv s.RunEnv)) } }
        status.Code.RunError
        ("error when running image: " ++ ("command was not executed correctly: " ++ e))
        p.ErrorHandler
        (events
          ++ [Event.buildEv (stageId p s) (stageDir p s)
                (buildCmdList (stageDir p s) (mergeEnv p.DefaultBuildEnv s.BuildEnv))]
          ++ [Event.runEv (stageId p s) (stageDir p s) (prevStdout result index)
                (runCmdList (stageDir p s) (mergeEnv p.DefaultRunEnv s.RunEnv))]) := by
  rcases ok_cases hb with hbe | hbe <;>
    simp [runLoop, buildImage, runImage, hbe, hr, statusCode, status.ofInt,
      List.append_assoc]

/-- Unfolding one loop iteration whose build succeeds but whose run
started and exited with a non-OK status. -/
theorem runLoop_cons_runStatusFail (p : Pipeline) (env : ExecEnv) (s : Stage)
    (rest : List Stage) (index : Nat) (result : PipelineResult)
    (events : List Event)
    (hb : (env.buildProc index).ok = true)
    (hnexec : ∀ e, (env.runProc index).err ≠ RunErr.execError e)
    (hst : statusCode (env.runProc index).err ≠ 0) :
    runLoop p env (s :: rest) index result events =
      handleError env result
        { Stage := s.Name, StartTime := timeNow,
          BuildResult := (buildImage (stageId p s) (stageDir p s)
            (mergeEnv p.DefaultBuildEnv s.BuildEnv) env.osEnv (env.buildProc index)).1,
          RunResult :=
            { Stdin := prevStdout result index,
              Stdout := (env.runProc index).stdout,
              Stderr := (env.runProc index).stderr,
              Cmd := joinSpace (runCmdList (stageDir p s) (mergeEnv p.DefaultRunEnv s.RunEnv)),
              CmdDir := stageDir p s,
              ExitStatus := statusCode (env.runProc index).err,
              Env := env.osEnv } }
        status.Code.RunError
        (runStatusMsg (statusCode (env.runProc index).err) (stageId p s))
        p.ErrorHandler
        (events
          ++ [Event.buildEv (stageId p s) (stageDir p s)
                (buildCmdList (stageDir p s) (mergeEnv p.DefaultBuildEnv s.BuildEnv))]
          ++ [Event.runEv (stageId p s) (stageDir p s) (prevStdout result index)
                (runCmdList (stageDir p s) (mergeEnv p.DefaultRunEnv s.RunEnv))]) := by
  cases herr : (env.runProc index).err with
  | success => rw [herr] at hst; simp [statusCode] at hst
  | exitError c =>
    rw [herr] at hst
    simp only [statusCode] at hst
    rcases ok_cases hb with hbe | hbe <;>
      simp [runLoop, buildImage, runImage, hbe, herr, statusCode, status.ofInt,
        hst, List.append_assoc]
  | execError e => exact absurd herr (hnexec e)
  | otherError e =>
    rcases ok_cases hb with hbe | hbe <;>
      simp [runLoop, buildImage, runImage, hbe, herr, statusCode, status.ofInt,
        List.append_assoc]

/-- With no handler configured, `handleError` finalizes the accumulated
result under the original classification and returns the original
descriptive error. -/
theorem handleError_no_handler (env : ExecEnv) (result : PipelineResult)
    (ser : StageExecutionResult) (st : status.Code) (msg : String)
    (handler : Stage) (events : List Event) (h : handler.Dir = "") :
    handleError env result ser st msg handler events =
      ({ result with
          StageResults := result.StageResults ++ [{ ser with FinalTime := timeNow }],
          Status := status.Text st, FinalTime := timeNow },
       some (PipeError.plainErr msg), events) := by
  simp [handleError, h]

/-- With a configured handler whose build and run both fully succeed,
`handleError` finalizes the accumulated result under the original
classification and returns the original descriptive error; the
handler's own stage result is not appended. -/
theorem handleError_handler_ok (env : ExecEnv) (result : PipelineResult)
    (ser : StageExecutionResult) (st : status.Code) (msg : String)
    (handler : Stage) (events : List Event) (h : handler.Dir ≠ "")
    (hb : env.handlerBuildProc.ok = true) (hr : env.handlerRunProc.ok = true) :
    handleError env result ser st msg handler events =
      ({ result with
          StageResults := result.StageResults ++ [{ ser with FinalTime := timeNow }],
          Status := status.Text st, FinalTime := timeNow },
       some (PipeError.plainErr msg),
       events
         ++ [Event.buildEv (result.Name ++ "/" ++ ser.Stage ++ " calls Error Handler")
               handler.Dir (buildCmdList handler.Dir handler.BuildEnv)]
         ++ [Event.runEv (result.Name ++ "/" ++ ser.Stage ++ " calls Error Handler")
               handler.Dir ({ ser with FinalTime := timeNow } : StageExecutionResult).toJson
               (runCmdList handler.Dir handler.RunEnv)]) := by
  rcases ok_cases hb with hbe | hbe <;> rcases ok_cases hr with hre | hre <;>
    simp [handleError, h, buildImage, runImage, hbe, hre, statusCode, status.ofInt,
      List.append_assoc]

/-- `handleError` never invokes `tearDown`, on any of its paths. -/
theorem countTeardown_handleError (env : ExecEnv) (result : PipelineResult)
    (ser : StageExecutionResult) (st : status.Code) (msg : String)
    (handler : Stage) (events : List Event) :
    countTeardown (handleError env result ser st msg handler events).2.2
      = countTeardown events := by
  by_cases h : handler.Dir = ""
  · simp [handleError, h]
  · cases hbe : env.handlerBuildProc.err with
    | execError e =>
      simp [handleError, h, buildImage, hbe, countTeardown, Event.isTeardown]
    | success =>
      cases hre : env.handlerRunProc.err with
      | execError e2 =>
        simp [handleError, h, buildImage, runImage, hbe, hre, statusCode,
          status.ofInt, countTeardown, Event.isTeardown]
      | success =>
        simp [handleError, h, buildImage, runImage, hbe, hre, statusCode,
          status.ofInt, countTeardown, Event.isTeardown]
      | exitError c =>
        by_cases hc : c = 0 <;>
          simp [handleError, h, buildImage, runImage, hbe, hre, statusCode,
            status.ofInt, hc, countTeardown, Event.isTeardown]
      | otherError e2 =>
        simp [handleError, h, buildImage, runImage, hbe, hre, statusCode,
          status.ofInt, countTeardown, Event.isTeardown]
    | exitError c =>
      by_cases hc : c = 0
      · cases hre : env.handlerRunProc.err with
        | execError e2 =>
          simp [handleError, h, buildImage, runImage, hbe, hre, statusCode,
            status.ofInt, hc, countTeardown, Event.isTeardown]
        | success =>
          simp [handleError, h, buildImage, runImage, hbe, hre, statusCode,
            status.ofInt, hc, countTeardown, Event.isTeardown]
        | exitError c2 =>
          by_cases hc2 : c2 = 0 <;>
            simp [handleError, h, buildImage, runImage, hbe, hre, statusCode,
              status.ofInt, hc, hc2, countTeardown, Event.isTeardown]
        | otherError e2 =>
          simp [handleError, h, buildImage, runImage, hbe, hre, statusCode,
            status.ofInt, hc, countTeardown, Event.isTeardown]
      · simp [handleError, h, buildImage, hbe, statusCode, status.ofInt, hc,
          countTeardown, Event.isTeardown]
    | otherError e =>
      simp [handleError, h, buildImage, hbe, statusCode, status.ofInt,
        countTeardown, Event.isTeardown]

/-- `tearDown` is invoked exactly once when every remaining stage
succeeds, and never when some remaining stage fails. -/
theorem countTeardown_runLoop (p : Pipeline) (env : ExecEnv) :
    ∀ (rest : List Stage) (index : Nat) (result : PipelineResult)
      (events : List Event),
    countTeardown (runLoop p env rest index result events).2.2
      = countTeardown events
          + (if okFrom env index rest.length then 1 else 0) := by
  intro rest
  induction rest with
  | nil =>
    intro index result events
    cases ht : env.teardownErr <;>
      simp [runLoop, ht, okFrom, countTeardown_append_teardown]
  | cons s rest ih =>
    intro index result events
    by_cases hb : (env.buildProc index).ok = true
    · by_cases hr : (env.runProc index).ok = true
      · rw [runLoop_cons_ok p env s rest index result events hb hr, ih]
        rw [countTeardown_append_run, countTeardown_append_build]
        simp [okFrom, hb, hr]
      · have hok : okFrom env index (s :: rest).length = false := by
          simp [List.length_cons, okFrom, hr]
        rw [hok]
        cases hre : (env.runProc index).err with
        | execError e =>
          rw [runLoop_cons_runExec p env s rest index result events e hb hre,
            countTeardown_handleError, countTeardown_append_run,
            countTeardown_append_build]
          simp
        | success =>
          exact absurd (by simp [ProcBehavior.ok, hre]) hr
        | exitError c =>
          have hc : c ≠ 0 := by
            intro hcontra
            exact hr (by simp [ProcBehavior.ok, hre, hcontra])
          rw [runLoop_cons_runStatusFail p env s rest index result events hb
              (by rw [hre]; intro e hcontra; exact RunErr.noConfusion hcontra)
              (by rw [hre]; simpa [statusCode] using hc),
            countTeardown_handleError, countTeardown_append_run,
            countTeardown_append_build]
          simp
        | otherError e =>
          rw [runLoop_cons_runStatusFail p env s rest index result events hb
              (by rw [hre]; intro e2 hcontra; exact RunErr.noConfusion hcontra)
              (by rw [hre]; simp [statusCode]),
            countTeardown_handleError, countTeardown_append_run,
            countTeardown_append_build]
          simp
    · have hok : okFrom env index (s :: rest).length = false := by
        simp [List.length_cons, okFrom, hb]
      rw [hok]
      cases hbe : (env.buildProc index).err with
      | execError e =>
        rw [runLoop_cons_buildExec p env s rest index result events e hbe,
          countTeardown_handleError, countTeardown_append_build]
        simp
      | success =>
        exact absurd (by simp [ProcBehavior.ok, hbe]) hb
      | exitError c =>
        have hc : c ≠ 0 := by
          intro hcontra
          exact hb (by simp [ProcBehavior.ok, hbe, hcontra])
        rw [runLoop_cons_buildStatusFail p env s rest index result events
            (by rw [hbe]; intro e hcontra; exact RunErr.noConfusion hcontra)
            (by rw [hbe]; simpa [statusCode] using hc),
          countTeardown_handleError, countTeardown_append_build]
        simp
      | otherError e =>
        rw [runLoop_cons_buildStatusFail p env s rest index result events
            (by rw [hbe]; intro e2 hcontra; exact RunErr.noConfusion hcontra)
            (by rw [hbe]; simp [statusCode]),
          countTeardown_handleError, countTeardown_append_build]
        simp

theorem prevStdout_append (result : PipelineResult) (ser : StageExecutionResult)
    (index : Nat) (hlen : result.StageResults.length = index) :
    prevStdout { result with StageResults := result.StageResults ++ [ser] }
        (index + 1)
      = ser.RunResult.Stdout := by
  simp only [prevStdout, Nat.add_sub_cancel, if_pos (Nat.succ_ne_zero index)]
  rw [← hlen, getD_append_length]

/-- Running through a prefix of `n` fully successful stages appends
exactly the expected stage results and continues the loop at the
remaining stages. -/
theorem runLoop_prefix (p : Pipeline) (env : ExecEnv) :
    ∀ (n : Nat) (rest : List Stage) (index : Nat) (result : PipelineResult)
      (events : List Event),
    okFrom env index n = true →
    result.StageResults.length = index →
    n ≤ rest.length →
    ∃ events',
      runLoop p env rest index result events =
        runLoop p env (rest.drop n) (index + n)
          { result with StageResults := result.StageResults
              ++ expectedResults p env index (rest.take n) (prevStdout result index) }
          events' := by
  intro n
  induction n with
  | zero =>
    intro rest index result events _ _ _
    refine ⟨events, ?_⟩
    simp [expectedResults]
  | succ m ih =>
    intro rest index result events hok hlen hle
    match rest with
    | [] => simp at hle
    | s :: rest' =>
      have hok0 : (((env.buildProc index).ok && (env.runProc index).ok)
          && okFrom env (index + 1) m) = true := by
        simpa [okFrom] using hok
      simp only [Bool.and_eq_true] at hok0
      have hb : (env.buildProc index).ok = true := hok0.1.1
      have hr : (env.runProc index).ok = true := hok0.1.2
      have hoktail : okFrom env (index + 1) m = true := hok0.2
      have hlen1 : ({ result with StageResults := result.StageResults
          ++ [mkSuccSer p env index s (prevStdout result index)] }
            : PipelineResult).StageResults.length = index + 1 := by
        simp [hlen]
      obtain ⟨ev', heq⟩ := ih rest' (index + 1)
        { result with StageResults := result.StageResults
            ++ [mkSuccSer p env index s (prevStdout result index)] }
        (events
          ++ [Event.buildEv (stageId p s) (stageDir p s)
                (buildCmdList (stageDir p s) (mergeEnv p.DefaultBuildEnv s.BuildEnv))]
          ++ [Event.runEv (stageId p s) (stageDir p s) (prevStdout result index)
                (runCmdList (stageDir p s) (mergeEnv p.DefaultRunEnv s.RunEnv))])
        hoktail hlen1 (by simpa using hle)
      refine ⟨ev', ?_⟩
      rw [runLoop_cons_ok p env s rest' index result events hb hr, heq]
      have hprev : prevStdout { result with StageResults := result.StageResults
          ++ [mkSuccSer p env index s (prevStdout result index)] } (index + 1)
            = (mkSuccSer p env index s (prevStdout result index)).RunResult.Stdout :=
        prevStdout_append result _ index hlen
      rw [hprev]
      have hidx : index + (m + 1) = index + 1 + m := by omega
      rw [List.drop_succ_cons, List.take_succ_cons, hidx]
      simp only [expectedResults, List.append_assoc, List.singleton_append]

theorem expectedResults_length (p : Pipeline) (env : ExecEnv) :
    ∀ (rest : List Stage) (index : Nat) (prev : String),
    (expectedResults p env index rest prev).length = rest.length := by
  intro rest
  induction rest with
  | nil => intro index prev; rfl
  | cons s rest' ih => intro index prev; simp [expectedResults, ih]

theorem expectedResults_stage (p : Pipeline) (env : ExecEnv) :
    ∀ (rest : List Stage) (index : Nat) (prev : String) (j : Nat),
    j < rest.length →
    ((expectedResults p env index rest prev).getD j {}).Stage
      = (rest.getD j {}).Name := by
  intro rest
  induction rest with
  | nil => intro index prev j hj; simp at hj
  | cons s rest' ih =>
    intro index prev j hj
    match j with
    | 0 => simp [expectedResults, mkSuccSer]
    | j' + 1 =>
      simp only [expectedResults, List.getD_cons_succ]
      exact ih (index + 1) _ j' (by simpa using hj)

theorem mkSuccSer_run_ok (p : Pipeline) (env : ExecEnv) (index : Nat)
    (s : Stage) (prev : String) (hr : (env.runProc index).ok = true) :
    (mkSuccSer p env index s prev).RunResult.Stdin = prev ∧
    (mkSuccSer p env index s prev).RunResult.Stdout = (env.runProc index).stdout := by
  rcases ok_cases hr with hre | hre <;> simp [mkSuccSer, runImage, hre]

/-- In an all-successful suffix, each recorded run's stdin is `prev` for
the first stage and the previous stage's oracle stdout afterwards, and
each recorded run's stdout is that stage's oracle stdout. -/
theorem expectedResults_chain (p : Pipeline) (env : ExecEnv) :
    ∀ (rest : List Stage) (index : Nat) (prev : String),
    okFrom env index rest.length = true →
    ∀ j, j < rest.length →
    (((expectedResults p env index rest prev).getD j {}).RunResult.Stdin
       = if j = 0 then prev else (env.runProc (index + j - 1)).stdout) ∧
    (((expectedResults p env index rest prev).getD j {}).RunResult.Stdout
       = (env.runProc (index + j)).stdout) := by
  intro rest
  induction rest with
  | nil => intro index prev _ j hj; simp at hj
  | cons s rest' ih =>
    intro index prev hok j hj
    have hok0 : (((env.buildProc index).ok && (env.runProc index).ok)
        && okFrom env (index + 1) rest'.length) = true := by
      simpa [okFrom] using hok
    simp only [Bool.and_eq_true] at hok0
    have hr : (env.runProc index).ok = true := hok0.1.2
    have hrun := mkSuccSer_run_ok p env index s prev hr
    match j with
    | 0 =>
      simp only [expectedResults, List.getD_cons_zero]
      refine ⟨by simpa using hrun.1, by simpa using hrun.2⟩
    | j' + 1 =>
      simp only [expectedResults, List.getD_cons_succ]
      have := ih (index + 1)
        ((mkSuccSer p env index s prev).RunResult.Stdout)
        hok0.2 j' (by simpa using hj)
      refine ⟨?_, ?_⟩
      · rw [this.1]
        match j' with
        | 0 =>
          simp [hrun.2]
        | m + 1 =>
          have h1 : index + 1 + (m + 1) - 1 = index + (m + 1 + 1) - 1 := by omega
          simp only [h1]
          simp
      · rw [this.2]
        have h2 : index + 1 + j' = index + (j' + 1) := by omega
        rw [h2]

theorem runLoop_nil_ok (p : Pipeline) (env : ExecEnv) (index : Nat)
    (result : PipelineResult) (events : List Event)
    (ht : env.teardownErr = none) :
    runLoop p env [] index result events =
      ({ result with Status := status.Text status.Code.OK, FinalTime := timeNow },
       none, events ++ [Event.teardownEv]) := by
  simp [runLoop, ht]

theorem runLoop_nil_teardownFail (p : Pipeline) (env : ExecEnv) (index : Nat)
    (result : PipelineResult) (events : List Event) (e : String)
    (ht : env.teardownErr = some e) :
    runLoop p env [] index result events =
      ({ result with Status := status.Text status.Code.SetupError },
       some (PipeError.statusErr status.Code.SetupError
         ("error in tear down: " ++ "\"" ++ e ++ "\"")),
       events ++ [Event.teardownEv]) := by
  simp [runLoop, ht]

/-- The descriptive message `Run` hands to `handleError` for stage `k`'s
run failure: the exec-failure wrapping for an unstartable command, the
exit-status form otherwise. -/
def stageRunFailMsg (p : Pipeline) (env : ExecEnv) (k : Nat) : String :=
  match (env.runProc k).err with
  | RunErr.execError e =>
    "error when running image: " ++ ("command was not executed correctly: " ++ e)
  | e => runStatusMsg (statusCode e) (stageId p (p.Stages.getD k {}))

theorem getD_append_of_length {α : Type} (l : List α) (x d : α) (n : Nat)
    (h : l.length = n) : (l ++ [x]).getD n d = x := by
  subst h
  exact getD_append_length l x d

theorem drop_eq_getD_cons {α : Type} (d : α) :
    ∀ (l : List α) (k : Nat), k < l.length →
    l.drop k = l.getD k d :: l.drop (k + 1) := by
  intro l
  induction l with
  | nil => intro k hk; simp at hk
  | cons x t ih =>
    intro k hk
    match k with
    | 0 => simp
    | k' + 1 =>
      simp only [List.drop_succ_cons, List.getD_cons_succ]
      exact ih k' (by simpa using hk)

theorem buildStatusMsg_contains (c : Int) (id : String) :
    (∃ a b, buildStatusMsg c id = a ++ toString c ++ b) ∧
    (∃ a, buildStatusMsg c id = a ++ id) := by
  constructor
  · refine ⟨"error when building image: status code ",
      "(" ++ status.Text (status.ofInt c) ++ ") when building image for " ++ id, ?_⟩
    simp [buildStatusMsg, String.append_assoc]
  · refine ⟨"error when building image: status code " ++ toString c ++ "("
      ++ status.Text (status.ofInt c) ++ ") when building image for ", ?_⟩
    simp [buildStatusMsg, String.append_assoc]

theorem dropWhile_head_not (p : Char → Bool) :
    ∀ (l : List Char), (l.dropWhile p = []) ∨
      (∃ c t, l.dropWhile p = c :: t ∧ p c = false) := by
  intro l
  induction l with
  | nil => exact Or.inl rfl
  | cons c t ih =>
    by_cases hc : p c = true
    · simpa [List.dropWhile_cons, hc] using ih
    · refine Or.inr ⟨c, t, ?_, by simpa using hc⟩
      simp [List.dropWhile_cons, hc]

theorem filepathBase_ne_empty (path : String) : filepathBase path ≠ "" := by
  unfold filepathBase
  by_cases h0 : path = ""
  · simp [h0]
  · rw [if_neg h0]
    rcases dropWhile_head_not (fun c => c = '/') path.data.reverse with h | ⟨c, t, hct, hc⟩
    · simp [h]
    · rw [hct]
      have hne : (c :: t).reverse ≠ [] := by simp
      rw [if_neg hne]
      intro hcontra
      have hdata := congrArg String.data hcontra
      simp only [data_mk] at hdata
      have : (c :: t).reverse.reverse.takeWhile (fun x => x ≠ '/') = [] := by
        have := congrArg List.reverse hdata
        simpa using this
      rw [List.reverse_reverse] at this
      have hcne : c ≠ '/' := by simpa using hc
      simp [List.takeWhile_cons, hcne] at this

/-! ### Claim theorems -/

/-- C1: for every pipeline of N stages in which setup succeeds and every
stage's build and run succeed (nil error and OK exit classification),
`Run` returns a `PipelineResult` with exactly N `StageExecutionResult`s
in stage order, status "OK", and a nil error; the run input of stage 1
is the empty string and, for every i > 1, the run input of stage i
equals the captured run stdout of stage i-1. -/
theorem C1_success_chain (p : Pipeline) (env : ExecEnv)
    (hs : env.setupErr = none) (ht : env.teardownErr = none)
    (hok : okFrom env 0 p.Stages.length = true) :
    (p.Run env).2.1 = none ∧
    (p.Run env).1.Status = "OK" ∧
    (p.Run env).1.StageResults.length = p.Stages.length ∧
    (∀ j, j < p.Stages.length →
      ((p.Run env).1.StageResults.getD j {}).Stage = (p.Stages.getD j {}).Name) ∧
    (∀ j, j < p.Stages.length →
      ((p.Run env).1.StageResults.getD j {}).RunResult.Stdin =
        if j = 0 then ""
        else ((p.Run env).1.StageResults.getD (j - 1) {}).RunResult.Stdout) := by
  have hsr : p.Run env =
      runLoop p env p.Stages 0
        { Name := p.Name, StartTime := timeNow } [Event.setupEv p.DefaultBaseDir] := by
    simp [Pipeline.Run, hs]
  obtain ⟨ev', heq⟩ := runLoop_prefix p env p.Stages.length p.Stages 0
    { Name := p.Name, StartTime := timeNow } [Event.setupEv p.DefaultBaseDir]
    hok (by simp) (Nat.le_refl _)
  rw [List.drop_length, List.take_length, runLoop_nil_ok p env _ _ _ ht] at heq
  rw [heq] at hsr
  have hprev0 : prevStdout ({ Name := p.Name, StartTime := timeNow }
      : PipelineResult) 0 = "" := by
    simp [prevStdout]
  have hSR : (p.Run env).1.StageResults
      = expectedResults p env 0 p.Stages "" := by
    rw [hsr]
    simp [hprev0]
  refine ⟨by rw [hsr], by rw [hsr]; rfl, ?_, ?_, ?_⟩
  · rw [hSR, expectedResults_length]
  · intro j hj
    rw [hSR]
    exact expectedResults_stage p env p.Stages 0 "" j hj
  · intro j hj
    rw [hSR]
    have hchain := expectedResults_chain p env p.Stages 0 "" hok j hj
    rw [hchain.1]
    match j with
    | 0 => simp
    | j' + 1 =>
      have hj' : j' < p.Stages.length := by omega
      have hchain' := expectedResults_chain p env p.Stages 0 "" hok j' hj'
      simp only [if_neg (Nat.succ_ne_zero j')]
      have h1 : 0 + (j' + 1) - 1 = 0 + j' := by omega
      have h2 : j' + 1 - 1 = j' := by omega
      rw [h1, h2, hchain'.2]

/-- C2: for every stage failure where a handler is configured (nonempty
handler directory) and the handler's own build and run both succeed, the
returned `PipelineResult` has status equal to the original failure's
classification text ("RunError" for a run failure) and the returned
error is the original failure's descriptive message — a bare
`fmt.Errorf` of the original message, not an error from the handler. -/
theorem C2_handler_success_keeps_original (p : Pipeline) (env : ExecEnv) (k : Nat)
    (hs : env.setupErr = none) (hk : k < p.Stages.length)
    (hpre : okFrom env 0 k = true)
    (hbk : (env.buildProc k).ok = true) (hrk : (env.runProc k).ok = false)
    (hh : p.ErrorHandler.Dir ≠ "")
    (hhb : env.handlerBuildProc.ok = true) (hhr : env.handlerRunProc.ok = true) :
    ((p.Run env).1.Status = "RunError" ∧
     (p.Run env).2.1 = some (PipeError.plainErr (stageRunFailMsg p env k))) ∧
    (∀ (result : PipelineResult) (ser : StageExecutionResult)
       (st : status.Code) (m : String) (handler : Stage) (events : List Event),
      handler.Dir ≠ "" →
      (handleError env result ser st m handler events).1.Status = status.Text st ∧
      (handleError env result ser st m handler events).2.1
        = some (PipeError.plainErr m)) := by
  refine ⟨?_, fun result ser st m handler events hhd => by
    rw [handleError_handler_ok env result ser st m handler events hhd hhb hhr]
    exact ⟨rfl, rfl⟩⟩
  have hsr : p.Run env =
      runLoop p env p.Stages 0
        { Name := p.Name, StartTime := timeNow } [Event.setupEv p.DefaultBaseDir] := by
    simp [Pipeline.Run, hs]
  obtain ⟨ev', heq⟩ := runLoop_prefix p env k p.Stages 0
    { Name := p.Name, StartTime := timeNow } [Event.setupEv p.DefaultBaseDir]
    hpre (by simp) (Nat.le_of_lt hk)
  rw [drop_eq_getD_cons ({} : Stage) p.Stages k hk] at heq
  simp only [Nat.zero_add] at heq
  cases hre : (env.runProc k).err with
  | success =>
    rw [ProcBehavior.ok, hre] at hrk
    simp at hrk
  | exitError c =>
    have hc : c ≠ 0 := by
      intro hcontra
      rw [ProcBehavior.ok, hre, hcontra] at hrk
      simp at hrk
    rw [runLoop_cons_runStatusFail p env _ _ k _ _ hbk
        (by rw [hre]; intro e h; exact RunErr.noConfusion h)
        (by rw [hre]; simpa [statusCode] using hc),
      handleError_handler_ok _ _ _ _ _ _ _ hh hhb hhr] at heq
    rw [heq] at hsr
    refine ⟨by rw [hsr]; rfl, ?_⟩
    rw [hsr]
    simp [stageRunFailMsg, hre]
  | execError e =>
    rw [runLoop_cons_runExec p env _ _ k _ _ e hbk hre,
      handleError_handler_ok _ _ _ _ _ _ _ hh hhb hhr] at heq
    rw [heq] at hsr
    refine ⟨by rw [hsr]; rfl, ?_⟩
    rw [hsr]
    simp [stageRunFailMsg, hre]
  | otherError e =>
    rw [runLoop_cons_runStatusFail p env _ _ k _ _ hbk
        (by rw [hre]; intro e2 h; exact RunErr.noConfusion h)
        (by rw [hre]; simp [statusCode]),
      handleError_handler_ok _ _ _ _ _ _ _ hh hhb hhr] at heq
    rw [heq] at hsr
    refine ⟨by rw [hsr]; rfl, ?_⟩
    rw [hsr]
    simp [stageRunFailMsg, hre]

/-- C4: for every pipeline with no handler configured in which the first
k stages succeed and stage k+1's build exits with a nonzero status c
(0-based index k), `Run` returns exactly k+1 stage results whose last
entry has only its build half populated (zero-valued run half), status
"BuildError", and a non-nil error whose text contains the stage
identifier and the exit code. -/
theorem C4_build_exit_no_handler (p : Pipeline) (env : ExecEnv) (k : Nat) (c : Int)
    (hs : env.setupErr = none) (hk : k < p.Stages.length)
    (hpre : okFrom env 0 k = true)
    (hbe : (env.buildProc k).err = RunErr.exitError c) (hc : c ≠ 0)
    (hnh : p.ErrorHandler.Dir = "") :
    (p.Run env).1.StageResults.length = k + 1 ∧
    ((p.Run env).1.StageResults.getD k {}).Stage = (p.Stages.getD k {}).Name ∧
    ((p.Run env).1.StageResults.getD k {}).RunResult = ({} : CmdResult) ∧
    ((p.Run env).1.StageResults.getD k {}).BuildResult.ExitStatus = c ∧
    (p.Run env).1.Status = "BuildError" ∧
    (p.Run env).2.1 = some (PipeError.plainErr
      (buildStatusMsg c (stageId p (p.Stages.getD k {})))) ∧
    (∃ a b, buildStatusMsg c (stageId p (p.Stages.getD k {}))
      = a ++ toString c ++ b) ∧
    (∃ a, buildStatusMsg c (stageId p (p.Stages.getD k {}))
      = a ++ stageId p (p.Stages.getD k {})) := by
  have hsr : p.Run env =
      runLoop p env p.Stages 0
        { Name := p.Name, StartTime := timeNow } [Event.setupEv p.DefaultBaseDir] := by
    simp [Pipeline.Run, hs]
  obtain ⟨ev', heq⟩ := runLoop_prefix p env k p.Stages 0
    { Name := p.Name, StartTime := timeNow } [Event.setupEv p.DefaultBaseDir]
    hpre (by simp) (Nat.le_of_lt hk)
  rw [drop_eq_getD_cons ({} : Stage) p.Stages k hk] at heq
  simp only [Nat.zero_add] at heq
  rw [runLoop_cons_buildStatusFail p env _ _ k _ _
      (by rw [hbe]; intro e h; exact RunErr.noConfusion h)
      (by rw [hbe]; simpa [statusCode] using hc),
    handleError_no_handler _ _ _ _ _ _ _ hnh] at heq
  rw [heq] at hsr
  have hlenpre : (expectedResults p env 0 (p.Stages.take k)
      (prevStdout { Name := p.Name, StartTime := timeNow } 0)).length = k := by
    rw [expectedResults_length]
    simp [List.length_take, Nat.min_eq_left (Nat.le_of_lt hk)]
  refine ⟨?_, ?_, ?_, ?_, by rw [hsr]; rfl, ?_,
    (buildStatusMsg_contains c (stageId p (p.Stages.getD k {}))).1,
    (buildStatusMsg_contains c (stageId p (p.Stages.getD k {}))).2⟩
  · rw [hsr]
    dsimp only
    simp [hlenpre]
  · rw [hsr]
    dsimp only
    rw [getD_append_of_length _ _ _ k (by simpa using hlenpre)]
  · rw [hsr]
    dsimp only
    rw [getD_append_of_length _ _ _ k (by simpa using hlenpre)]
  · rw [hsr]
    dsimp only
    rw [getD_append_of_length _ _ _ k (by simpa using hlenpre)]
    dsimp only
    rw [hbe]
    rfl
  · rw [hsr]
    dsimp only
    rw [hbe]
    rfl

/-- The error message `handleError` produces when the handler's own
build fails: the exec-failure wrapping for an unstartable command, the
exit-status form otherwise (`hid` is the handler invocation id). -/
def handlerBuildFailMsg (env : ExecEnv) (hid : String) : String :=
  match env.handlerBuildProc.err with
  | RunErr.execError e =>
    "error when building image for error handler: "
      ++ ("command was not executed correctly: " ++ e)
  | e =>
    "error when building image for error handler: Status code "
      ++ toString (statusCode e) ++ "("
      ++ status.Text (status.ofInt (statusCode e))
      ++ ") when running image for " ++ hid

/-- C3: for every stage failure where a handler is configured and the
handler's build fails (start failure or non-OK exit), `handleError`
appends a `StageExecutionResult` for the handler with only its build
half populated, sets the `PipelineResult` status to
"ErrorHandlerError", and returns an error describing the handler's
build failure (a `status.NewError` wrapper) rather than the original
stage failure's bare error. -/
theorem C3_handler_build_failure (env : ExecEnv) (result : PipelineResult)
    (ser : StageExecutionResult) (st : status.Code) (msg : String)
    (handler : Stage) (events : List Event)
    (hdir : handler.Dir ≠ "") (hfail : env.handlerBuildProc.ok = false) :
    (handleError env result ser st msg handler events).1.Status
      = "ErrorHandlerError" ∧
    (handleError env result ser st msg handler events).1.StageResults
      = result.StageResults ++ [{ ser with FinalTime := timeNow }]
        ++ [{ Stage := handler.Name, StartTime := timeNow, FinalTime := 0,
              BuildResult := (buildImage
                (result.Name ++ "/" ++ ser.Stage ++ " calls Error Handler")
                handler.Dir handler.BuildEnv env.osEnv env.handlerBuildProc).1,
              RunResult := {} }] ∧
    (handleError env result ser st msg handler events).2.1
      = some (PipeError.statusErr status.Code.BuildError
          (handlerBuildFailMsg env
            (result.Name ++ "/" ++ ser.Stage ++ " calls Error Handler"))) ∧
    (handleError env result ser st msg handler events).2.1
      ≠ some (PipeError.plainErr msg) := by
  cases hbe : env.handlerBuildProc.err with
  | success =>
    rw [ProcBehavior.ok, hbe] at hfail
    simp at hfail
  | exitError c =>
    have hc : c ≠ 0 := by
      intro hcontra
      rw [ProcBehavior.ok, hbe, hcontra] at hfail
      simp at hfail
    simp [handleError, hdir, buildImage, hbe, statusCode, status.ofInt, hc,
      handlerBuildFailMsg, status.Text]
  | execError e =>
    simp [handleError, hdir, buildImage, hbe, statusCode, status.ofInt,
      handlerBuildFailMsg, status.Text]
  | otherError e =>
    simp [handleError, hdir, buildImage, hbe, statusCode, status.ofInt,
      handlerBuildFailMsg, status.Text]

/-- C5: for every pipeline in which setup fails, `Run` returns a
`PipelineResult` with no stage results and status "SetupError" together
with a non-nil error, and no build or run executor is ever invoked. -/
theorem C5_setup_failure (p : Pipeline) (env : ExecEnv) (e : String)
    (hs : env.setupErr = some e) :
    (p.Run env).1.StageResults = [] ∧
    (p.Run env).1.Status = "SetupError" ∧
    (p.Run env).2.1 ≠ none ∧
    (∀ ev ∈ (p.Run env).2.2, Event.isExec ev = false) := by
  have hrun : p.Run env =
      ({ Name := p.Name, StartTime := timeNow,
         Status := status.Text status.Code.SetupError },
       some (PipeError.statusErr status.Code.SetupError
         ("error in inicial setup: " ++ "\"" ++ e ++ "\"")),
       [Event.setupEv p.DefaultBaseDir]) := by
    simp [Pipeline.Run, hs]
  refine ⟨by rw [hrun], by rw [hrun]; rfl, by rw [hrun]; simp, ?_⟩
  intro ev hev
  rw [hrun] at hev
  simp only [List.mem_singleton] at hev
  rw [hev]
  rfl

/-- C6: exit-status classification of a build/run invocation: a process
that exits with code 0 yields exit status 0 (classified OK) with a nil
error; a command that could not be started yields the sentinel exit
status -2 with a non-nil error and a `CmdResult` with only the exit
status and command string populated; a process that starts and exits
with any other code yields that exit code verbatim with a nil error. -/
theorem C6_exit_classification (id dir prev : String)
    (benv renv : List (String × String)) (osEnv : List String)
    (so se : String) :
    ((buildImage id dir benv osEnv
        { err := RunErr.success, stdout := so, stderr := se }).1.ExitStatus = 0 ∧
      status.ofInt ((buildImage id dir benv osEnv
        { err := RunErr.success, stdout := so, stderr := se }).1.ExitStatus)
          = status.Code.OK ∧
      (buildImage id dir benv osEnv
        { err := RunErr.success, stdout := so, stderr := se }).2 = none) ∧
    (∀ e, buildImage id dir benv osEnv
        { err := RunErr.execError e, stdout := so, stderr := se }
      = ({ ExitStatus := -2, Cmd := joinSpace (buildCmdList dir benv) },
         some ("command was not executed correctly: " ++ e))) ∧
    (∀ c, (buildImage id dir benv osEnv
        { err := RunErr.exitError c, stdout := so, stderr := se }).1.ExitStatus = c ∧
      (buildImage id dir benv osEnv
        { err := RunErr.exitError c, stdout := so, stderr := se }).2 = none) ∧
    ((runImage id dir prev renv osEnv
        { err := RunErr.success, stdout := so, stderr := se }).1.ExitStatus = 0 ∧
      (runImage id dir prev renv osEnv
        { err := RunErr.success, stdout := so, stderr := se }).2 = none) ∧
    (∀ e, runImage id dir prev renv osEnv
        { err := RunErr.execError e, stdout := so, stderr := se }
      = ({ ExitStatus := -2, Cmd := joinSpace (runCmdList dir renv) },
         some ("command was not executed correctly: " ++ e))) ∧
    (∀ c, (runImage id dir prev renv osEnv
        { err := RunErr.exitError c, stdout := so, stderr := se }).1.ExitStatus = c ∧
      (runImage id dir prev renv osEnv
        { err := RunErr.exitError c, stdout := so, stderr := se }).2 = none) := by
  refine ⟨⟨rfl, rfl, rfl⟩, fun e => rfl, fun c => ⟨rfl, rfl⟩,
    ⟨rfl, rfl⟩, fun e => rfl, fun c => ⟨rfl, rfl⟩⟩

/-- C7: `mergeEnv` implements override semantics — every key present
only in the defaults keeps its default value, every key bound by the
overrides takes the override value (keys present in both therefore take
the overrides' value).  The embedding of `mergeEnv` is a pure function
building a fresh list, so neither argument is mutated by construction. -/
theorem C7_mergeEnv_override (d s : List (String × String))
    (hd : (d.map Prod.fst).Nodup) (hs : (s.map Prod.fst).Nodup) (k : String) :
    (lookupEnv s k = none → lookupEnv (mergeEnv d s) k = lookupEnv d k) ∧
    (∀ v, lookupEnv s k = some v → lookupEnv (mergeEnv d s) k = some v) := by
  have h := lookupEnv_mergeEnv d s hd hs k
  constructor
  · intro hn
    rw [hn] at h
    exact h
  · intro v hv
    rw [hv] at h
    exact h

/-- C8: teardown is invoked exactly once when setup and every stage
succeed and never on any failure path; if teardown itself fails after
every stage succeeded, `Run` nonetheless returns status "SetupError". -/
theorem C8_teardown_exactly_once (p : Pipeline) (env : ExecEnv) :
    countTeardown (p.Run env).2.2
      = (if env.setupErr = none ∧ okFrom env 0 p.Stages.length = true
         then 1 else 0) ∧
    (env.setupErr = none → okFrom env 0 p.Stages.length = true →
      ∀ e, env.teardownErr = some e → (p.Run env).1.Status = "SetupError") := by
  constructor
  · cases hsetup : env.setupErr with
    | some e =>
      simp [Pipeline.Run, hsetup, countTeardown, Event.isTeardown]
    | none =>
      have hsr : p.Run env =
          runLoop p env p.Stages 0
            { Name := p.Name, StartTime := timeNow }
            [Event.setupEv p.DefaultBaseDir] := by
        simp [Pipeline.Run, hsetup]
      rw [hsr, countTeardown_runLoop]
      simp [countTeardown, Event.isTeardown]
  · intro hs hok e ht
    have hsr : p.Run env =
        runLoop p env p.Stages 0
          { Name := p.Name, StartTime := timeNow }
          [Event.setupEv p.DefaultBaseDir] := by
      simp [Pipeline.Run, hs]
    obtain ⟨ev', heq⟩ := runLoop_prefix p env p.Stages.length p.Stages 0
      { Name := p.Name, StartTime := timeNow } [Event.setupEv p.DefaultBaseDir]
      hok (by simp) (Nat.le_refl _)
    rw [List.drop_length, List.take_length,
      runLoop_nil_teardownFail p env _ _ _ e ht] at heq
    rw [heq] at hsr
    rw [hsr]
    rfl

theorem envChunks_mem_ne_empty : ∀ (entries : List (String × String)),
    ∀ s ∈ envChunks entries, s ≠ "" := by
  intro entries
  induction entries with
  | nil => intro s hs; simp [envChunks] at hs
  | cons kv rest ih =>
    intro s hs
    match kv with
    | (k, v) =>
      simp only [envChunks, List.mem_cons] at hs
      rcases hs with h1 | h2 | h3
      · rw [h1]; decide
      · rw [h2]
        rw [show k ++ "=" ++ v = k ++ ("=" ++ v) by simp [String.append_assoc]]
        exact append_ne_empty_right k ("=" ++ v)
          (append_ne_empty_left "=" v (by decide))
      · exact ih s h3

/-- C9 (amended): for every stage, every nonempty space-free
run-environment mapping and every space-free image tag, the run
invocation's argument list is exactly
`run -i -v dadosjusbr:/output --rm`, one `--env KEY=VALUE` argument
pair per run-env entry in entry order, then the tag, with no empty
argument; a started run records the stage directory as working
directory and the previous stage's captured stdout as its process
input. -/
theorem C9_run_invocation (id dir prev : String)
    (entries : List (String × String)) (osEnv : List String)
    (proc : ProcBehavior)
    (hne : entries ≠ []) (hsf : spaceFreeEnv entries = true)
    (htag : spaceFree (filepathBase dir) = true)
    (hstart : ∀ e, proc.err ≠ RunErr.execError e) :
    runCmdList dir entries =
      ["docker", "run", "-i", "-v", "dadosjusbr:/output", "--rm"]
        ++ envChunks entries ++ [filepathBase dir] ∧
    "" ∉ runCmdList dir entries ∧
    (runImage id dir prev entries osEnv proc).1.CmdDir = dir ∧
    (runImage id dir prev entries osEnv proc).1.Stdin = prev := by
  have hlist := runCmdList_eq dir entries hne hsf htag
  refine ⟨hlist, ?_, ?_, ?_⟩
  · rw [hlist]
    intro hmem
    rw [List.append_assoc, List.mem_append] at hmem
    rcases hmem with h1 | h23
    · simp at h1
    · rcases List.mem_append.mp h23 with h2 | h3
      · exact envChunks_mem_ne_empty entries "" h2 rfl
      · rw [List.mem_singleton] at h3
        exact filepathBase_ne_empty dir h3.symm
  · cases hpe : proc.err with
    | execError e => exact absurd hpe (hstart e)
    | success => simp [runImage, hpe]
    | exitError c => simp [runImage, hpe]
    | otherError e => simp [runImage, hpe]
  · cases hpe : proc.err with
    | execError e => exact absurd hpe (hstart e)
    | success => simp [runImage, hpe]
    | exitError c => simp [runImage, hpe]
    | otherError e => simp [runImage, hpe]

/-- C9 counterexample: with the empty run-environment mapping the
argument list is not the claimed one — `strings.Split` on the doubled
space inserts one extra empty argument between `--rm` and the tag. -/
theorem C9_counterexample :
    runCmdList "stage1" []
      ≠ ["docker", "run", "-i", "-v", "dadosjusbr:/output", "--rm"]
          ++ envChunks [] ++ ["stage1"] ∧
    "" ∈ runCmdList "stage1" [] := by
  decide

/-! ### Witness fixtures and witnesses -/

/-- Fixture pipeline for the C1 witness: two stages, no handler. -/
def c1p : Pipeline :=
  { Name := "P", DefaultBaseDir := "b",
    Stages := [{ Name := "s1", Dir := "d1" }, { Name := "s2", Dir := "d2" }] }

/-- Fixture oracle for the C1 witness: everything succeeds, stage i's
run prints `out<i>`. -/
def c1env : ExecEnv :=
  { runProc := fun i =>
      { err := RunErr.success, stdout := "out" ++ toString i, stderr := "" } }

theorem C1_success_chain_witness :
    (c1p.Run c1env).2.1 = none ∧
    (c1p.Run c1env).1.Status = "OK" ∧
    (c1p.Run c1env).1.StageResults.length = 2 ∧
    ((c1p.Run c1env).1.StageResults.getD 1 {}).RunResult.Stdin = "out0" := by
  have h := C1_success_chain c1p c1env rfl rfl (by decide)
  refine ⟨h.1, h.2.1, h.2.2.1, ?_⟩
  have hc := h.2.2.2.2 1 (by decide)
  rw [hc]
  decide

/-- Fixture pipeline for the C2 witness: one stage plus a handler. -/
def c2p : Pipeline :=
  { Name := "P", DefaultBaseDir := "b",
    Stages := [{ Name := "s1", Dir := "d1" }],
    ErrorHandler := { Name := "h", Dir := "hd" } }

/-- Fixture oracle for the C2 witness: stage 0's run exits 3, the
handler fully succeeds. -/
def c2env : ExecEnv :=
  { runProc := fun _ => { err := RunErr.exitError 3, stdout := "", stderr := "" } }

theorem C2_handler_success_keeps_original_witness :
    (c2p.Run c2env).1.Status = "RunError" ∧
    (c2p.Run c2env).2.1
      = some (PipeError.plainErr (stageRunFailMsg c2p c2env 0)) :=
  (C2_handler_success_keeps_original c2p c2env 0 rfl (by decide) (by decide)
    (by decide) (by decide) (by decide) rfl rfl).1

/-- Fixture oracle for the C3 witness: the handler's build exits 5. -/
def c3env : ExecEnv :=
  { handlerBuildProc := { err := RunErr.exitError 5, stdout := "", stderr := "" } }

theorem C3_handler_build_failure_witness :
    (handleError c3env {} {} status.Code.RunError "orig"
      { Name := "h", Dir := "hd" } []).1.Status = "ErrorHandlerError" ∧
    (handleError c3env {} {} status.Code.RunError "orig"
      { Name := "h", Dir := "hd" } []).2.1
        ≠ some (PipeError.plainErr "orig") := by
  have h := C3_handler_build_failure c3env {} {} status.Code.RunError "orig"
    { Name := "h", Dir := "hd" } [] (by decide) (by decide)
  exact ⟨h.1, h.2.2.2⟩

/-- Fixture pipeline for the C4 witness: one stage, no handler. -/
def c4p : Pipeline :=
  { Name := "P", DefaultBaseDir := "b", Stages := [{ Name := "s1", Dir := "d1" }] }

/-- Fixture oracle for the C4 witness: the build exits 7. -/
def c4env : ExecEnv :=
  { buildProc := fun _ => { err := RunErr.exitError 7, stdout := "", stderr := "" } }

theorem C4_build_exit_no_handler_witness :
    (c4p.Run c4env).1.StageResults.length = 1 ∧
    ((c4p.Run c4env).1.StageResults.getD 0 {}).RunResult = ({} : CmdResult) ∧
    (c4p.Run c4env).1.Status = "BuildError" ∧
    (c4p.Run c4env).2.1 = some (PipeError.plainErr
      (buildStatusMsg 7 (stageId c4p (c4p.Stages.getD 0 {})))) := by
  have h := C4_build_exit_no_handler c4p c4env 0 7 rfl (by decide) (by decide)
    rfl (by decide) rfl
  exact ⟨h.1, h.2.2.1, h.2.2.2.2.1, h.2.2.2.2.2.1⟩

/-- Fixture oracle for the C5 witness: setup fails. -/
def c5env : ExecEnv := { setupErr := some "boom" }

theorem C5_setup_failure_witness :
    (c4p.Run c5env).1.StageResults = [] ∧
    (c4p.Run c5env).1.Status = "SetupError" ∧
    (c4p.Run c5env).2.1 ≠ none := by
  have h := C5_setup_failure c4p c5env "boom" rfl
  exact ⟨h.1, h.2.1, h.2.2.1⟩

theorem C7_mergeEnv_override_witness :
    lookupEnv (mergeEnv [("a", "1"), ("b", "2")] [("b", "3"), ("c", "4")]) "b"
      = some "3" ∧
    lookupEnv (mergeEnv [("a", "1"), ("b", "2")] [("b", "3"), ("c", "4")]) "a"
      = lookupEnv [("a", "1"), ("b", "2")] "a" := by
  have h1 := C7_mergeEnv_override [("a", "1"), ("b", "2")] [("b", "3"), ("c", "4")]
    (by decide) (by decide) "b"
  have h2 := C7_mergeEnv_override [("a", "1"), ("b", "2")] [("b", "3"), ("c", "4")]
    (by decide) (by decide) "a"
  exact ⟨h1.2 "3" (by decide), h2.1 (by decide)⟩

/-- Fixture oracle for the C8 witness: every stage succeeds but the
final teardown fails. -/
def c8env : ExecEnv := { teardownErr := some "x" }

theorem C8_teardown_exactly_once_witness :
    countTeardown ((c4p.Run c8env).2.2) = 1 ∧
    (c4p.Run c8env).1.Status = "SetupError" := by
  have h := C8_teardown_exactly_once c4p c8env
  refine ⟨?_, h.2 rfl (by decide) "x" rfl⟩
  rw [h.1]
  decide

theorem C9_run_invocation_witness :
    runCmdList "base/st" [("K", "V")] =
      ["docker", "run", "-i", "-v", "dadosjusbr:/output", "--rm"]
        ++ envChunks [("K", "V")] ++ [filepathBase "base/st"] ∧
    (runImage "id" "base/st" "prevout" [("K", "V")] []
      { err := RunErr.success, stdout := "", stderr := "" }).1.Stdin = "prevout" := by
  have h := C9_run_invocation "id" "base/st" "prevout" [("K", "V")] []
    { err := RunErr.success, stdout := "", stderr := "" }
    (by decide) (by decide) (by decide)
    (by intro e hcontra; exact RunErr.noConfusion hcontra)
  exact ⟨h.1, h.2.2.2⟩

end Executor
